import Mathlib

/- Verification of the Zen Space plugin's index-file synchronization.

   The definitions below are a shallow embedding of the TypeScript source:
   `getAllFilesInFolder`, `createIndexFile`, `updateIndexFileContent` and
   `registerIndexFileUpdateEvents` from src/main.ts, and `createBaseFile` /
   `generateBaseFileContent` from src/src/create-base.ts.

   Conventions of the embedding:
   - A vault file (`TFile`) carries its full `name` (with extension) and its
     `extension`, as the plugin reads them.
   - A folder tree is a mutual inductive (`Folder` / `FolderList`) so that the
     recursive scan reduces definitionally; `FolderList` is just `List Folder`
     spelled out as its own inductive.
   - JavaScript string comparison (`Array.prototype.sort` with the default
     comparator) is modelled by `lexLe` on the character lists; the default
     sort is modelled by insertion sort, which agrees with any comparison
     sort on lists of strings.
   - The effectful bodies of `createIndexFile` / `updateIndexFileContent` are
     modelled as functions returning the list of storage calls they issue
     (`StorageOp`) together with the user feedback they emit (`Feedback`).
     A possible storage failure of the final create/modify call is injected
     through an `Option String` error-message argument.
   - Dates are pinned: `formattedDate` stands for
     `new Date().toISOString().split("T")[0]`. -/

set_option maxRecDepth 100000

namespace ZenSpace

/-- A file as the plugin sees it: `name` is `TFile.name` (base name with
extension), `extension` is `TFile.extension` (without the dot). -/
structure TFile where
  name : String
  extension : String
deriving DecidableEq, Repr

mutual

/-- A folder node: its `path`, its `name`, its direct file children (in vault
order) and its direct subfolder children (in vault order). This mirrors a
`TFolder` whose `children` have been separated into files and folders, which
is exactly how `getAllFilesInFolder` consumes them. -/
inductive Folder where
  | mk (path : String) (name : String) (files : List TFile) (subs : FolderList)

/-- The list of direct subfolders of a folder (isomorphic to `List Folder`;
made a mutual inductive so recursion over the tree is structural). -/
inductive FolderList where
  | nil : FolderList
  | cons (head : Folder) (tail : FolderList) : FolderList

end

def Folder.path : Folder → String
  | .mk p _ _ _ => p

def Folder.name : Folder → String
  | .mk _ n _ _ => n

def Folder.files : Folder → List TFile
  | .mk _ _ fs _ => fs

def Folder.subs : Folder → FolderList
  | .mk _ _ _ sf => sf

mutual

/-- The `subfolders` map built by `getAllFilesInFolder` when
`includeSubfolders` is set: for each direct subfolder, an entry
`(child.path, files of child)` followed by the entries of the child's own
subtree (`subfolders.set(child.path, ...)` then merging the recursive map,
in JavaScript `Map` insertion order). -/
def subfolderEntries : Folder → List (String × List TFile)
  | .mk _ _ _ subs => subfolderEntriesList subs

def subfolderEntriesList : FolderList → List (String × List TFile)
  | .nil => []
  | .cons s rest => ((s.path, s.files) :: subfolderEntries s) ++ subfolderEntriesList rest

end

/-- `getAllFilesInFolder` from src/main.ts: direct files of the folder, plus
(when `includeSubfolders` is enabled) the flattened map from every descendant
subfolder path to that subfolder's direct files. -/
def getAllFilesInFolder (includeSubfolders : Bool) (folder : Folder) :
    List TFile × List (String × List TFile) :=
  (folder.files, if includeSubfolders then subfolderEntries folder else [])

/-- The eligibility filter applied before every produced list:
`file.extension === "md" && file.name !== "Index.md"`. -/
def isEligible (f : TFile) : Bool :=
  f.extension == "md" && f.name != "Index.md"

/-- `name.replace(/\.md$/, "")` on the character list: remove one trailing
`.md` when present. -/
def stripMdData (l : List Char) : List Char :=
  if l.reverse.take 3 = ['d', 'm', '.'] then (l.reverse.drop 3).reverse else l

/-- `file.name.replace(/\.md$/, "")`. -/
def stripMd (s : String) : String :=
  String.mk (stripMdData s.data)

/-- Lexicographic order on character lists by code point, the order used by
JavaScript's default `Array.prototype.sort` comparator on strings. -/
def lexLe : List Char → List Char → Bool
  | [], _ => true
  | _ :: _, [] => false
  | a :: as, b :: bs => if a = b then lexLe as bs else decide (a.toNat < b.toNat)

/-- String comparison used by `.sort()`. -/
def strLe (a b : String) : Bool :=
  lexLe a.data b.data

/-- Insert into a sorted list (helper for the model of `.sort()`). -/
def insertSorted (a : String) : List String → List String
  | [] => [a]
  | b :: bs => if strLe a b then a :: b :: bs else b :: insertSorted a bs

/-- Model of `.sort()` on an array of strings: any comparison sort produces
the same list of strings, so insertion sort is used. -/
def sortStrings (xs : List String) : List String :=
  xs.foldr insertSorted []

/-- Helper for the model of `[...new Set(xs)]`: keep the first occurrence of
each string, in order. -/
def dedupFirstAux (seen : List String) : List String → List String
  | [] => []
  | x :: xs =>
      if seen.contains x then dedupFirstAux seen xs
      else x :: dedupFirstAux (x :: seen) xs

/-- `[...new Set(xs)]`: deduplicate, keeping first occurrences in order. -/
def dedupFirst (xs : List String) : List String :=
  dedupFirstAux [] xs

/-- The `.filter(eligible).map(strip .md).sort()` chain applied to a file
list (used for `currentFolderFiles` and for each subfolder's `fileList`). -/
def processFiles (files : List TFile) : List String :=
  sortStrings ((files.filter isEligible).map (fun f => stripMd f.name))

/-- The `allFiles` accumulation for the longform `scenes` list: the (already
processed) current-folder names, then every eligible stripped name from each
subfolder entry in map order; then `[...new Set(allFiles)].sort()`. -/
def subfolderNames (subs : List (String × List TFile)) : List String :=
  subs.flatMap (fun e => (e.2.filter isEligible).map (fun f => stripMd f.name))

/-- `const uniqueFiles = [...new Set(allFiles)].sort()`. -/
def allNamesSorted (currentFolderFiles : List String) (subs : List (String × List TFile)) :
    List String :=
  sortStrings (dedupFirst (currentFolderFiles ++ subfolderNames subs))

/-- `path.split("/")` on the character list (single-character separator,
JavaScript semantics: `"".split("/") = [""]`, `"/".split("/") = ["", ""]`). -/
def splitOnChar (c : Char) : List Char → List (List Char)
  | [] => [[]]
  | x :: xs =>
      let r := splitOnChar c xs
      if x = c then [] :: r
      else
        match r with
        | [] => [[x]]
        | h :: t => (x :: h) :: t

/-- `path.split("/")`. -/
def splitSlash (s : String) : List String :=
  (splitOnChar '/' s.data).map String.mk

/-- `path.split("/").pop()`: the final path segment. -/
def lastSegment (s : String) : String :=
  (splitSlash s).getLastD ""

/-- `"#".repeat(depth + 1)`. On every folder tree the count is nonnegative,
so truncating at zero is faithful. -/
def hashRepeat (n : Int) : String :=
  String.mk (List.replicate n.toNat '#')

/-- `` names.map(file => `- [[${file}]]`).join("\n") ``. -/
def wikiLinkLines (names : List String) : String :=
  String.intercalate "\n" (names.map (fun n => "- [[" ++ n ++ "]]"))

/-- The flat bulleted list: emitted only when nonempty. -/
def flatListText (names : List String) : String :=
  if names.length > 0 then wikiLinkLines names else ""

/-- One subsection, from one `subfolders` entry `(path, files)`: heading of
`"#".repeat(depth + 1)` where `depth = path segments of the subfolder minus
path segments of the root folder`, label = final segment, then the bulleted
list; the empty string when the subfolder has no eligible files. -/
def subsectionText (folderPath : String) (entry : String × List TFile) : String :=
  let subName := lastSegment entry.1
  let depth : Int := ((splitSlash entry.1).length : Int) - ((splitSlash folderPath).length : Int)
  let headingLevel := hashRepeat (depth + 1)
  let fileList := processFiles entry.2
  if fileList.length > 0 then
    headingLevel ++ " " ++ subName ++ "\n" ++ wikiLinkLines fileList
  else ""

/-- The subsection strings that survive `.filter(Boolean)`; empty when
`includeSubfolders` is disabled. -/
def subsectionBlocks (includeSubfolders : Bool) (folderPath : String)
    (subs : List (String × List TFile)) : List String :=
  if includeSubfolders then
    (subs.map (subsectionText folderPath)).filter (fun s => s != "")
  else []

/-- The subsection region of the body: blocks joined by blank lines. -/
def subsectionsText (includeSubfolders : Bool) (folderPath : String)
    (subs : List (String × List TFile)) : String :=
  String.intercalate "\n\n" (subsectionBlocks includeSubfolders folderPath subs)

/-- `const cssClass = this.settings.useGridLayoutForIndex ? "zen-grid" : ""`. -/
structure Settings where
  includeSubfolders : Bool
  useLongformTemplate : Bool
  useGridLayoutForIndex : Bool
deriving DecidableEq, Repr

def cssClassOf (st : Settings) : String :=
  if st.useGridLayoutForIndex then "zen-grid" else ""

/-- `` uniqueFiles.map(filename => `    - ${filename}`).join("\n") ``. -/
def scenesYAML (uniqueFiles : List String) : String :=
  String.intercalate "\n" (uniqueFiles.map (fun n => "    - " ++ n))

/-- The body shared verbatim by every template in `createIndexFile` and
`updateIndexFileContent`: heading, flat list, blank line, subsections. -/
def bodyText (st : Settings) (folder : Folder) : String :=
  let scan := getAllFilesInFolder st.includeSubfolders folder
  "# " ++ folder.name ++ "\n" ++ flatListText (processFiles scan.1) ++ "\n\n"
    ++ subsectionsText st.includeSubfolders folder.path scan.2

/-- The `content` template literal of `createIndexFile` (both branches of
`useLongformTemplate`), with the clock pinned to `formattedDate`. -/
def createIndexContent (st : Settings) (folder : Folder) (formattedDate : String) : String :=
  let scan := getAllFilesInFolder st.includeSubfolders folder
  let currentFolderFiles := processFiles scan.1
  let cssClass := cssClassOf st
  if st.useLongformTemplate then
    let uniqueFiles := allNamesSorted currentFolderFiles scan.2
    let sy := scenesYAML uniqueFiles
    "---\ncssclass: " ++ cssClass ++ "\nlongform:\n  format: scenes\n  title: "
      ++ folder.name ++ "\n  workflow: Default Workflow\n  sceneFolder: /\n  scenes:\n"
      ++ (if sy == "" then "    " else sy)
      ++ "\n   \n  ignoredFiles:\n    - Index\ncreated: " ++ formattedDate
      ++ "\nupdated: " ++ formattedDate ++ "\n---\n\n" ++ bodyText st folder
  else
    "---\ncssclass: " ++ cssClass ++ "\ntitle: " ++ folder.name
      ++ "\ncreated: " ++ formattedDate ++ "\nupdated: " ++ formattedDate
      ++ "\n---\n\n" ++ bodyText st folder

/-- The `newContent` template literal of `updateIndexFileContent`. It is the
plain (non-longform) template, built from the folder scan alone: it does not
depend on the content read from the existing index document, and it is used
regardless of `useLongformTemplate`. -/
def updateIndexNewContent (st : Settings) (folder : Folder) (formattedDate : String) : String :=
  "---\ncssclass: " ++ cssClassOf st ++ "\ntitle: " ++ folder.name
    ++ "\ncreated: " ++ formattedDate ++ "\nupdated: " ++ formattedDate
    ++ "\n---\n\n" ++ bodyText st folder

/-- The `longform` frontmatter block, one of the two header shapes the
plugin special-cases. -/
structure LongformBlock where
  format : String
  title : String
  workflow : String
  sceneFolder : String
  scenes : List String
  ignoredFiles : List String
deriving DecidableEq, Repr

/-- A parsed frontmatter header: the scalar fields in document order, plus
the optional `longform` block. The `processFrontMatter` callback only ever
touches `updated`, `cssclass` and `longform`, so this shape covers every
field access the source performs. -/
structure Frontmatter where
  fields : List (String × String)
  longform : Option LongformBlock
deriving DecidableEq, Repr

/-- Assignment to a JavaScript object property: replace in place when the
key exists, append otherwise. -/
def setField (fields : List (String × String)) (key value : String) :
    List (String × String) :=
  if fields.any (fun e => e.1 == key) then
    fields.map (fun e => if e.1 == key then (key, value) else e)
  else fields ++ [(key, value)]

/-- The fresh `longform` block built when none exists yet. -/
def freshLongform (folderName : String) (uniqueFiles : List String) : LongformBlock :=
  ⟨"scenes", folderName, "Default Workflow", "/", uniqueFiles, ["Index"]⟩

/-- The callback passed to `app.fileManager.processFrontMatter` by
`updateIndexFileContent`: set `updated`, set `cssclass`, and when
`useLongformTemplate` is enabled either create the `longform` block or
replace only its `scenes` field. Every other field is left as it was. -/
def processFrontMatterCallback (st : Settings) (folderName formattedDate cssClass : String)
    (uniqueFiles : List String) (fm : Frontmatter) : Frontmatter :=
  let fm1 : Frontmatter := { fm with fields := setField fm.fields "updated" formattedDate }
  let fm2 : Frontmatter := { fm1 with fields := setField fm1.fields "cssclass" cssClass }
  if st.useLongformTemplate then
    match fm2.longform with
    | none => { fm2 with longform := some (freshLongform folderName uniqueFiles) }
    | some lf => { fm2 with longform := some { lf with scenes := uniqueFiles } }
  else fm2

/-- One call to the host storage interface, as issued by the synchronizer.
`opFrontmatterWrite` is the document rewrite performed inside
`app.fileManager.processFrontMatter` (the host's atomic header
read-modify-write helper). -/
inductive StorageOp where
  | opRead (path : String)
  | opFrontmatterWrite (path : String) (fm : Frontmatter)
  | opModify (path : String) (content : String)
  | opCreate (path : String) (content : String)
deriving DecidableEq, Repr

def StorageOp.path : StorageOp → String
  | .opRead p => p
  | .opFrontmatterWrite p _ => p
  | .opModify p _ => p
  | .opCreate p _ => p

/-- Whether the call writes to the document. -/
def StorageOp.isWrite : StorageOp → Bool
  | .opRead _ => false
  | _ => true

/-- User-visible feedback: a transient `Notice`, or a `console.error` log
line (not shown to the user). -/
inductive Feedback where
  | notice (message : String)
  | consoleLog (message : String)
deriving DecidableEq, Repr

def Feedback.isNotice : Feedback → Bool
  | .notice _ => true
  | .consoleLog _ => false

/-- `message.includes(sub)`. -/
def includesStr (s sub : String) : Bool :=
  decide (sub.data <:+: s.data)

/-- The body of `updateIndexFileContent`, as the sequence of storage calls it
issues and the feedback it emits.

* `indexPresent` models `getAbstractFileByPath(indexPath)` resolving to a
  `TFile`; when it does not, the function returns without doing anything.
* `existingFm` is the frontmatter the host parser hands to the
  `processFrontMatter` callback, read from the current document.
* `modifyError` injects a failure of the final `vault.modify` call; the
  `catch` block only logs to the console (`console.error`). -/
def updateIndexFileContentRun (st : Settings) (folder : Folder) (formattedDate : String)
    (indexPresent : Bool) (existingFm : Frontmatter) (modifyError : Option String) :
    List StorageOp × List Feedback :=
  let indexPath := folder.path ++ "/Index.md"
  if !indexPresent then ([], [])
  else
    let scan := getAllFilesInFolder st.includeSubfolders folder
    let currentFolderFiles := processFiles scan.1
    let cssClass := cssClassOf st
    let uniqueFiles := allNamesSorted currentFolderFiles scan.2
    let mergedFm := processFrontMatterCallback st folder.name formattedDate cssClass
      uniqueFiles existingFm
    let newContent := updateIndexNewContent st folder formattedDate
    match modifyError with
    | none =>
        ([.opRead indexPath, .opFrontmatterWrite indexPath mergedFm,
          .opModify indexPath newContent], [])
    | some e =>
        ([.opRead indexPath, .opFrontmatterWrite indexPath mergedFm,
          .opModify indexPath newContent],
         [.consoleLog ("Error updating Index file: " ++ e)])

/-- The body of `createIndexFile`: when the index document already exists it
delegates to `updateIndexFileContent` and shows an "Updated" notice;
otherwise it issues a single `vault.create` with the freshly built content.
`createError` injects a failure of that create call; the `catch` block shows
an error notice unless the message includes "already exists". -/
def createIndexFileRun (st : Settings) (folder : Folder) (formattedDate : String)
    (indexPresent : Bool) (existingFm : Frontmatter) (createError : Option String) :
    List StorageOp × List Feedback :=
  let indexPath := folder.path ++ "/Index.md"
  if indexPresent then
    let sub := updateIndexFileContentRun st folder formattedDate true existingFm createError
    (sub.1, sub.2 ++ [.notice ("Updated Index file in " ++ folder.name)])
  else
    let content := createIndexContent st folder formattedDate
    match createError with
    | none => ([.opCreate indexPath content], [.notice ("Created Index file in " ++ folder.name)])
    | some e =>
        ([.opCreate indexPath content],
         if includesStr e "already exists" then []
         else [.notice ("Error creating Index file: " ++ e)])

/-- The document content on disk after a run: fold the storage calls over the
current content. The effect of the `processFrontMatter` helper depends on the
host's header serializer, abstracted as `fmSplice`; `modify` and `create`
replace the whole content. -/
def applyOps (fmSplice : Frontmatter → String → String) (doc : Option String)
    (ops : List StorageOp) : Option String :=
  ops.foldl
    (fun d o =>
      match o with
      | .opRead _ => d
      | .opFrontmatterWrite _ fm => d.map (fmSplice fm)
      | .opModify _ c => some c
      | .opCreate _ c => some c)
    doc

/-- `generateBaseFileContent` from src/src/create-base.ts. -/
def generateBaseFileContent (folder : Folder) : String :=
  let folderPath := if folder.path == "" then "/" else folder.path
  "views:\n  - type: table\n    name: Table\n    filters:\n      and:\n        - file.folder == \""
    ++ folderPath
    ++ "\"\n    order:\n      - file.name\n      - tags\n      - created\n      - updated\n    columnSize:\n      file.name: 352\n      note.tags: 306\n"

/-- The body of `createBaseFile` from src/src/create-base.ts: when anything
already exists at `<folder path>/<folder name>.base` it returns immediately;
otherwise it issues a single `vault.create`. `createError` injects a failure
of that call. -/
def createBaseFileRun (folder : Folder) (baseExists : Bool) (createError : Option String) :
    List StorageOp × List Feedback :=
  let basePath := folder.path ++ "/" ++ folder.name ++ ".base"
  if baseExists then ([], [])
  else
    let content := generateBaseFileContent folder
    match createError with
    | none => ([.opCreate basePath content], [.notice ("Created Database file in " ++ folder.name)])
    | some e =>
        ([.opCreate basePath content],
         if includesStr e "already exists" then []
         else [.notice ("Error creating Database file: " ++ e)])

/-- The filter every vault event handler applies:
`file.extension === "md" && file.name !== "Index.md"`. -/
def isMdNonIndex (name extension : String) : Bool :=
  extension == "md" && name != "Index.md"

/-- The "create" handler of `registerIndexFileUpdateEvents`: the list of
folder paths whose index document it re-synchronizes. `hasParent` models
`file.parent` being non-null, `isFile` models `file instanceof TFile`. -/
def handleCreateEvent (hasParent isFile : Bool) (name extension parentPath : String) :
    List String :=
  if hasParent && isFile && isMdNonIndex name extension then [parentPath] else []

/-- The "delete" handler of `registerIndexFileUpdateEvents`. -/
def handleDeleteEvent (hasParent isFile : Bool) (name extension parentPath : String) :
    List String :=
  if hasParent && isFile && isMdNonIndex name extension then [parentPath] else []

/-- `oldPath.substring(0, oldPath.lastIndexOf("/"))`: everything before the
last slash, the empty string when there is none. -/
def oldParentPathOf (oldPath : String) : String :=
  String.mk (((oldPath.data.reverse.dropWhile (fun c => c ≠ '/')).drop 1).reverse)

/-- The "rename" handler of `registerIndexFileUpdateEvents`: re-synchronize
the new parent (under the same filter as create/delete), then the old parent
when it resolves to a folder distinct from the new parent.
`oldParentIsFolder` models `getAbstractFileByPath(oldParentPath)` resolving
to a `TFolder`; object identity `oldParent !== file.parent` is path identity
(distinct vault folders have distinct paths). -/
def handleRenameEvent (hasParent isFile : Bool) (name extension parentPath oldPath : String)
    (oldParentIsFolder : Bool) : List String :=
  (if hasParent && isFile && isMdNonIndex name extension then [parentPath] else []) ++
  (let oldParentPath := oldParentPathOf oldPath
   if oldParentIsFolder && (!hasParent || oldParentPath != parentPath) then [oldParentPath]
   else [])

mutual

/-- All files anywhere in a folder's subtree (the folder's own files and,
recursively, those of every descendant subfolder). -/
def allFilesIn : Folder → List TFile
  | .mk _ _ fs subs => fs ++ allFilesInList subs

def allFilesInList : FolderList → List TFile
  | .nil => []
  | .cons f rest => allFilesIn f ++ allFilesInList rest

end

/-- Vault well-formedness: `TFile.name` is the base name followed by a dot
and the extension, so every file whose `extension` is `"md"` has a `name`
ending in `".md"`. -/
def mdNamesWellFormed (folder : Folder) : Bool :=
  (allFilesIn folder).all
    (fun t => t.extension != "md" || decide (t.name.data.reverse.take 3 = ['d', 'm', '.']))

end ZenSpace

namespace ZenSpace

theorem string_data_inj {s t : String} (h : s.data = t.data) : s = t := by
  cases s
  cases t
  exact congrArg String.mk h

theorem mem_insertSorted {x a : String} {l : List String} :
    x ∈ insertSorted a l ↔ x = a ∨ x ∈ l := by
  induction l with
  | nil => simp [insertSorted]
  | cons b bs ih =>
      simp only [insertSorted]
      split
      · simp [List.mem_cons]
      · simp only [List.mem_cons, ih]
        tauto

theorem mem_sortStrings {x : String} {l : List String} :
    x ∈ sortStrings l ↔ x ∈ l := by
  induction l with
  | nil => simp [sortStrings]
  | cons b bs ih =>
      show x ∈ insertSorted b (sortStrings bs) ↔ _
      rw [mem_insertSorted, ih]
      simp [List.mem_cons]

theorem mem_dedupFirstAux {x : String} {l : List String} :
    ∀ {seen : List String}, x ∈ dedupFirstAux seen l → x ∈ l := by
  induction l with
  | nil => intro seen h; simp [dedupFirstAux] at h
  | cons b bs ih =>
      intro seen h
      simp only [dedupFirstAux] at h
      split at h
      · exact List.mem_cons_of_mem _ (ih h)
      · rcases List.mem_cons.mp h with h1 | h1
        · exact h1 ▸ List.mem_cons_self b bs
        · exact List.mem_cons_of_mem _ (ih h1)

theorem mem_dedupFirst {x : String} {l : List String} (h : x ∈ dedupFirst l) : x ∈ l :=
  mem_dedupFirstAux h

theorem stripMdData_eq_index {l : List Char} (h : stripMdData l = "Index".data) :
    l = "Index".data ∨ l = "Index.md".data := by
  unfold stripMdData at h
  split at h
  · rename_i hc
    right
    have h2 : l.reverse.drop 3 = "Index".data.reverse := by
      rw [← h]
      simp
    have h3 : l.reverse = ['d', 'm', '.'] ++ "Index".data.reverse := by
      conv_lhs => rw [← List.take_append_drop 3 l.reverse]
      rw [hc, h2]
    have h4 : l = (['d', 'm', '.'] ++ "Index".data.reverse).reverse := by
      rw [← h3]
      simp
    rw [h4]
    decide
  · exact Or.inl h

theorem stripMd_eq_index {s : String} (h : stripMd s = "Index") :
    s = "Index" ∨ s = "Index.md" := by
  have hd : stripMdData s.data = "Index".data := congrArg String.data h
  rcases stripMdData_eq_index hd with h1 | h1
  · exact Or.inl (string_data_inj h1)
  · exact Or.inr (string_data_inj h1)

theorem index_not_mem_eligibleNames {files : List TFile}
    (hwf : ∀ t ∈ files, t.extension = "md" → t.name.data.reverse.take 3 = ['d', 'm', '.']) :
    "Index" ∉ (files.filter isEligible).map (fun t => stripMd t.name) := by
  intro hmem
  simp only [List.mem_map, List.mem_filter] at hmem
  obtain ⟨t, ⟨htmem, helig⟩, hstrip⟩ := hmem
  have helig' : t.extension = "md" ∧ t.name ≠ "Index.md" := by
    simpa [isEligible] using helig
  rcases stripMd_eq_index hstrip with h1 | h1
  · have := hwf t htmem helig'.1
    rw [h1] at this
    exact absurd this (by decide)
  · exact helig'.2 h1

theorem index_not_mem_processFiles {files : List TFile}
    (hwf : ∀ t ∈ files, t.extension = "md" → t.name.data.reverse.take 3 = ['d', 'm', '.']) :
    "Index" ∉ processFiles files := by
  intro hmem
  rw [processFiles, mem_sortStrings] at hmem
  exact index_not_mem_eligibleNames hwf hmem

theorem mem_files_allFilesIn {t : TFile} {f : Folder} (h : t ∈ f.files) : t ∈ allFilesIn f := by
  cases f with
  | mk p n fs subs =>
      simp only [Folder.files] at h
      simp only [allFilesIn, List.mem_append]
      exact Or.inl h

mutual

theorem subfolderEntries_files_mem :
    ∀ (f : Folder), ∀ e ∈ subfolderEntries f, ∀ t ∈ e.2, t ∈ allFilesIn f
  | .mk _ _ fs subs, e, he, t, ht => by
      have h := subfolderEntriesList_files_mem subs e he t ht
      simp only [allFilesIn, List.mem_append]
      exact Or.inr h

theorem subfolderEntriesList_files_mem :
    ∀ (fl : FolderList), ∀ e ∈ subfolderEntriesList fl, ∀ t ∈ e.2, t ∈ allFilesInList fl
  | .nil, e, he, t, ht => by simp [subfolderEntriesList] at he
  | .cons s rest, e, he, t, ht => by
      simp only [subfolderEntriesList] at he
      rcases List.mem_append.mp he with hl | hr
      · rcases List.mem_cons.mp hl with h1 | h1
        · subst h1
          simp only [allFilesInList, List.mem_append]
          exact Or.inl (mem_files_allFilesIn ht)
        · simp only [allFilesInList, List.mem_append]
          exact Or.inl (subfolderEntries_files_mem s e h1 t ht)
      · simp only [allFilesInList, List.mem_append]
        exact Or.inr (subfolderEntriesList_files_mem rest e hr t ht)

end

theorem mdNamesWellFormed_spec {folder : Folder} (h : mdNamesWellFormed folder = true) :
    ∀ t ∈ allFilesIn folder, t.extension = "md" →
      t.name.data.reverse.take 3 = ['d', 'm', '.'] := by
  intro t ht hext
  have h2 := List.all_eq_true.mp h t ht
  rw [hext] at h2
  simpa using h2

example : splitSlash "Root/Sub" = ["Root", "Sub"] := rfl
example : splitSlash "" = [""] := rfl
example : splitSlash "/" = ["", ""] := rfl
example : lastSegment "Root/Sub" = "Sub" := rfl
example : stripMd "A.md" = "A" := rfl
example : stripMd "Index.md" = "Index" := rfl
example : stripMd "A" = "A" := rfl
example : sortStrings ["b", "a", "c", "a"] = ["a", "a", "b", "c"] := by decide
example : dedupFirst ["b", "a", "b"] = ["b", "a"] := by decide

def demoSub : Folder := .mk "Root/Sub" "Sub" [⟨"C.md", "md"⟩] .nil

def demoTree : Folder := .mk "Root" "Root" [⟨"B.md", "md"⟩, ⟨"A.md", "md"⟩, ⟨"Index.md", "md"⟩]
  (.cons demoSub .nil)

example : (getAllFilesInFolder true demoTree).2 = [("Root/Sub", [⟨"C.md", "md"⟩])] := rfl
example : processFiles (getAllFilesInFolder true demoTree).1 = ["A", "B"] := by decide
example : subsectionText "Root" ("Root/Sub", [⟨"C.md", "md"⟩]) = "## Sub\n- [[C]]" := by decide

/-- Settings with subfolder inclusion on and the longform template off. -/
def demoSettings : Settings := ⟨true, false, false⟩

/-- Settings with subfolder inclusion and the longform template both on. -/
def demoLongformSettings : Settings := ⟨true, true, false⟩

/-- A folder `Root` holding two ordinary notes (and an existing index
document on disk, represented by `indexPresent := true` in the runs). -/
def demoFolder : Folder := .mk "Root" "Root" [⟨"A.md", "md"⟩, ⟨"B.md", "md"⟩] .nil

/-- The frontmatter of the existing index document before synchronization:
a `title`, an original `created` date, and an unrelated custom field `X: 1`. -/
def demoOldFm : Frontmatter := ⟨[("title", "Root"), ("created", "2020-01-01"), ("X", "1")], none⟩

/-- The pinned clock for the concrete runs. -/
def demoDate : String := "2026-10-11"

/-- The document content the update path finally writes for `demoFolder`
(identical under `demoSettings` and `demoLongformSettings`, since the
`newContent` template ignores `useLongformTemplate`). -/
def demoFinalContent : String := updateIndexNewContent demoSettings demoFolder demoDate

def demoLongformFinalContent : String :=
  updateIndexNewContent demoLongformSettings demoFolder demoDate

/-- C1: the claim says every frontmatter field other than `updated` and
`cssclass` (and `longform.scenes`) survives an update-path synchronization
verbatim, in particular a custom field `X: 1`. On the code this fails: the
`processFrontMatter` step does preserve `X: 1` (first conjunct, the
intermediate write), but `updateIndexFileContent` then terminates with
`vault.modify` carrying a freshly built template (second conjunct), and that
written document no longer contains the field `X` anywhere (third
conjunct). -/
theorem c1_update_discards_unrelated_frontmatter_field :
    ((updateIndexFileContentRun demoSettings demoFolder demoDate true demoOldFm none).1[1]? =
      some (.opFrontmatterWrite "Root/Index.md"
        ⟨[("title", "Root"), ("created", "2020-01-01"), ("X", "1"),
          ("updated", "2026-10-11"), ("cssclass", "")], none⟩)) ∧
    ((updateIndexFileContentRun demoSettings demoFolder demoDate true demoOldFm none).1.getLast? =
      some (.opModify "Root/Index.md" demoFinalContent)) ∧
    ¬ ("X".data <:+: demoFinalContent.data) :=
  ⟨by decide, by decide, by decide⟩

/-- C2: the claim says the `created` field of the written document equals the
`created` value stored before the run. On the code this fails: the existing
document carried `created: 2020-01-01` (first conjunct), the terminal
`vault.modify` payload is the rebuilt template (second conjunct), and that
written document carries `created: 2026-10-11` — the pinned current date —
and no longer contains `created: 2020-01-01` (last two conjuncts). -/
theorem c2_update_resets_created_field :
    (("created", "2020-01-01") ∈ demoOldFm.fields) ∧
    ((updateIndexFileContentRun demoSettings demoFolder demoDate true demoOldFm none).1.getLast? =
      some (.opModify "Root/Index.md" demoFinalContent)) ∧
    ("created: 2026-10-11".data <:+: demoFinalContent.data) ∧
    ¬ ("created: 2020-01-01".data <:+: demoFinalContent.data) :=
  ⟨by decide, by decide, by decide, by decide⟩

/-- C3: the claim says that with `useLongformTemplate` enabled the written
index document contains a `longform` block whose `scenes` equals the
deduplicated sorted union of eligible names, on both the create path and the
update path. The create path satisfies it (first conjunct: the full created
document, whose `scenes` block lists exactly `allNamesSorted = ["A", "B"]`,
second conjunct). On the update path it fails: the intermediate
`processFrontMatter` write does set `longform.scenes := ["A", "B"]` (third
conjunct), but the terminal `vault.modify` payload is the plain template
(fourth conjunct), and the word `longform` does not occur in the written
document at all (last conjunct). -/
theorem c3_update_path_drops_longform_scenes :
    (createIndexContent demoLongformSettings demoFolder demoDate =
      "---\ncssclass: \nlongform:\n  format: scenes\n  title: Root\n  workflow: Default Workflow\n  sceneFolder: /\n  scenes:\n    - A\n    - B\n   \n  ignoredFiles:\n    - Index\ncreated: 2026-10-11\nupdated: 2026-10-11\n---\n\n# Root\n- [[A]]\n- [[B]]\n\n") ∧
    (allNamesSorted (processFiles (getAllFilesInFolder true demoFolder).1)
        (getAllFilesInFolder true demoFolder).2 = ["A", "B"]) ∧
    ((updateIndexFileContentRun demoLongformSettings demoFolder demoDate true demoOldFm none).1[1]? =
      some (.opFrontmatterWrite "Root/Index.md"
        ⟨[("title", "Root"), ("created", "2020-01-01"), ("X", "1"),
          ("updated", "2026-10-11"), ("cssclass", "")],
         some ⟨"scenes", "Root", "Default Workflow", "/", ["A", "B"], ["Index"]⟩⟩)) ∧
    ((updateIndexFileContentRun demoLongformSettings demoFolder demoDate true demoOldFm
        none).1.getLast? =
      some (.opModify "Root/Index.md" demoLongformFinalContent)) ∧
    ¬ ("longform".data <:+: demoLongformFinalContent.data) :=
  ⟨by decide, by decide, by decide, by decide, by decide⟩

/-- C4: synchronization is idempotent — with a pinned clock and no folder
change, running the update path twice leaves the same document content as
running it once, whatever frontmatter the second run reads back and whatever
header-splicing semantics (`fmSplice`) the host's `processFrontMatter`
helper has: the terminal `vault.modify` payload depends only on the folder
scan, the settings and the date. -/
theorem c4_update_sync_idempotent (fmSplice : Frontmatter → String → String)
    (st : Settings) (folder : Folder) (formattedDate : String)
    (doc : Option String) (fm1 fm2 : Frontmatter) :
    applyOps fmSplice
        (applyOps fmSplice doc (updateIndexFileContentRun st folder formattedDate true fm1 none).1)
        (updateIndexFileContentRun st folder formattedDate true fm2 none).1
      = applyOps fmSplice doc (updateIndexFileContentRun st folder formattedDate true fm1 none).1 :=
  rfl

/-- C5 counterexample: the claim says every synchronization performs exactly
one terminal write with no intermediate document state. On the concrete
update-path run the number of write calls is two, not one: the
`processFrontMatter` helper rewrites the document before `vault.modify`
rewrites it again. -/
theorem c5_counterexample_update_issues_two_writes :
    ((updateIndexFileContentRun demoSettings demoFolder demoDate true demoOldFm none).1.countP
        StorageOp.isWrite = 2) ∧
    ¬ ((updateIndexFileContentRun demoSettings demoFolder demoDate true demoOldFm none).1.countP
        StorageOp.isWrite = 1) :=
  ⟨by decide, by decide⟩

/-- C5 amended: on a present index document the update path performs exactly
one read and exactly two writes — the intermediate frontmatter rewrite by
`processFrontMatter`, then the terminal whole-document `vault.modify`, which
is the last storage call; when the index document is absent the update path
performs no storage call; the create path (document absent) performs no read
and exactly one `vault.create`. -/
theorem c5_amended_read_write_profile (st : Settings) (folder : Folder) (formattedDate : String)
    (fm : Frontmatter) (err : Option String) :
    ((updateIndexFileContentRun st folder formattedDate true fm err).1.countP
        (fun o => !o.isWrite) = 1) ∧
    ((updateIndexFileContentRun st folder formattedDate true fm err).1.countP
        StorageOp.isWrite = 2) ∧
    ((updateIndexFileContentRun st folder formattedDate true fm err).1.getLast? =
      some (.opModify (folder.path ++ "/Index.md")
        (updateIndexNewContent st folder formattedDate))) ∧
    ((updateIndexFileContentRun st folder formattedDate false fm err).1 = []) ∧
    ((createIndexFileRun st folder formattedDate false fm err).1 =
      [.opCreate (folder.path ++ "/Index.md") (createIndexContent st folder formattedDate)]) := by
  cases err <;> exact ⟨rfl, rfl, rfl, rfl, rfl⟩

/-- C6: for every folder content and every settings combination, the name
"Index" never appears in the flat list, in any subsection list, or in the
longform `scenes` list built by `createIndexFile` / `updateIndexFileContent`.
The hypothesis is the vault's naming invariant (a file with extension `md`
has a name ending in `.md`), under which the only file whose stripped
display name is "Index" is `Index.md` itself, which the eligibility filter
excludes. -/
theorem c6_index_name_never_listed (st : Settings) (folder : Folder)
    (hwf : mdNamesWellFormed folder = true) :
    "Index" ∉ processFiles (getAllFilesInFolder st.includeSubfolders folder).1 ∧
    (∀ e ∈ (getAllFilesInFolder st.includeSubfolders folder).2, "Index" ∉ processFiles e.2) ∧
    "Index" ∉ allNamesSorted (processFiles (getAllFilesInFolder st.includeSubfolders folder).1)
        (getAllFilesInFolder st.includeSubfolders folder).2 := by
  have W := mdNamesWellFormed_spec hwf
  have hflat : "Index" ∉ processFiles (getAllFilesInFolder st.includeSubfolders folder).1 := by
    apply index_not_mem_processFiles
    intro t ht hext
    exact W t (mem_files_allFilesIn ht) hext
  have hsubs : ∀ e ∈ (getAllFilesInFolder st.includeSubfolders folder).2,
      ∀ t ∈ e.2, t ∈ allFilesIn folder := by
    intro e he t ht
    simp only [getAllFilesInFolder] at he
    split at he
    · exact subfolderEntries_files_mem folder e he t ht
    · simp at he
  refine ⟨hflat, ?_, ?_⟩
  · intro e he
    apply index_not_mem_processFiles
    intro t ht hext
    exact W t (hsubs e he t ht) hext
  · intro hmem
    simp only [allNamesSorted] at hmem
    rw [mem_sortStrings] at hmem
    have hmem2 := mem_dedupFirst hmem
    rcases List.mem_append.mp hmem2 with h | h
    · exact hflat h
    · simp only [subfolderNames, List.mem_flatMap] at h
      obtain ⟨e, he, hIdx⟩ := h
      exact index_not_mem_eligibleNames (fun t ht hext => W t (hsubs e he t ht) hext) hIdx

/-- C6 witness: the naming invariant holds on the concrete tree `Root`
(files `B.md`, `A.md`, `Index.md`, subfolder `Root/Sub` with `C.md`), and
"Index" is absent from its flat list. -/
theorem c6_index_name_never_listed_witness :
    mdNamesWellFormed demoTree = true ∧
    "Index" ∉ processFiles (getAllFilesInFolder demoSettings.includeSubfolders demoTree).1 :=
  ⟨by decide, (c6_index_name_never_listed demoSettings demoTree (by decide)).1⟩

/-- C7: for a subfolder entry whose path has more segments than the root
folder's path (which holds for every descendant), a contributing subfolder
yields a subsection whose heading consists of
`max 1 (segments(subfolder) - segments(folder) + 1)` hash marks — the
spec's clamped formula — followed by the subfolder's final path segment and
its bulleted name list; a subfolder with no eligible leaves yields the empty
string, and empty strings never survive into the rendered block list. The
last two conjuncts check Scenario C concretely: `Root` with `Root/Sub`
containing `C.md` yields exactly the one subsection `"## Sub\n- [[C]]"`
(heading depth 2, label `Sub`, names `["C"]`), and the longform `scenes`
union is `["C"]`. -/
theorem c7_subsection_heading_depth (folderPath subPath : String) (files : List TFile)
    (hdesc : (splitSlash folderPath).length < (splitSlash subPath).length) :
    (processFiles files ≠ [] →
      subsectionText folderPath (subPath, files) =
        String.mk (List.replicate
            (max 1 ((splitSlash subPath).length + 1 - (splitSlash folderPath).length)) '#')
          ++ " " ++ lastSegment subPath ++ "\n" ++ wikiLinkLines (processFiles files)) ∧
    (processFiles files = [] → subsectionText folderPath (subPath, files) = "") ∧
    (∀ (inc : Bool) (rootPath : String) (subs : List (String × List TFile)),
      "" ∉ subsectionBlocks inc rootPath subs) ∧
    (subsectionBlocks true "Root"
        (getAllFilesInFolder true (.mk "Root" "Root" [] (.cons demoSub .nil))).2 =
      ["## Sub\n- [[C]]"]) ∧
    (allNamesSorted
        (processFiles (getAllFilesInFolder true (.mk "Root" "Root" [] (.cons demoSub .nil))).1)
        (getAllFilesInFolder true (.mk "Root" "Root" [] (.cons demoSub .nil))).2 = ["C"]) := by
  refine ⟨?_, ?_, ?_, by decide, by decide⟩
  · intro hne
    have hlen : 0 < (processFiles files).length := List.length_pos.mpr hne
    have harg : ((((splitSlash subPath).length : Int) -
          ((splitSlash folderPath).length : Int)) + 1).toNat
        = max 1 ((splitSlash subPath).length + 1 - (splitSlash folderPath).length) := by
      omega
    simp only [subsectionText, hashRepeat]
    rw [if_pos hlen, harg]
  · intro h0
    simp [subsectionText, h0]
  · intro inc rootPath subs hmem
    simp only [subsectionBlocks] at hmem
    split at hmem
    · have := (List.mem_filter.mp hmem).2
      simp at this
    · simp at hmem

/-- C7 witness: the segment-count hypothesis holds for `Root` and
`Root/Sub`, and `Root/Sub` containing `C.md` renders with the clamped
heading-depth formula, label `Sub` and names `["C"]`. -/
theorem c7_subsection_heading_depth_witness :
    (splitSlash "Root").length < (splitSlash "Root/Sub").length ∧
    subsectionText "Root" ("Root/Sub", [⟨"C.md", "md"⟩]) =
      String.mk (List.replicate
          (max 1 ((splitSlash "Root/Sub").length + 1 - (splitSlash "Root").length)) '#')
        ++ " " ++ lastSegment "Root/Sub" ++ "\n" ++ wikiLinkLines (processFiles [⟨"C.md", "md"⟩]) :=
  ⟨by decide,
   (c7_subsection_heading_depth "Root" "Root/Sub" [⟨"C.md", "md"⟩] (by decide)).1 (by decide)⟩

/-- C8: when anything already exists at `<folder path>/<folder name>.base`,
`createBaseFile` returns immediately: it issues no storage call at all (so
the existing file is never read, modified or recreated) and emits no
feedback, whatever the folder currently contains and whatever error the
storage layer would have produced. -/
theorem c8_existing_base_file_untouched (folder : Folder) (createError : Option String) :
    createBaseFileRun folder true createError = ([], []) :=
  rfl

/-- C9 counterexample: the claim says any failing modify during
synchronization is surfaced to the user as a transient notification. On the
update path it is not: a failing `vault.modify` produces no notice — the
`catch` block only writes to the console. -/
theorem c9_counterexample_update_failure_logged_only :
    ((updateIndexFileContentRun demoSettings demoFolder demoDate true demoOldFm
        (some "EPERM: write failed")).2.any Feedback.isNotice = false) ∧
    ((updateIndexFileContentRun demoSettings demoFolder demoDate true demoOldFm
        (some "EPERM: write failed")).2 =
      [.consoleLog "Error updating Index file: EPERM: write failed"]) :=
  ⟨rfl, rfl⟩

/-- C9 amended: a failing create on the `createIndexFile` path whose message
does not include "already exists" is surfaced as a transient notice, with
exactly one create attempt and no retry; a failing modify on the
`updateIndexFileContent` path is logged to the console only (no notice),
with exactly one modify attempt and no retry. -/
theorem c9_amended_error_feedback (st : Settings) (folder : Folder) (formattedDate : String)
    (fm : Frontmatter) (msg : String)
    (hmsg : ¬ ("already exists".data <:+: msg.data)) :
    ((createIndexFileRun st folder formattedDate false fm (some msg)).2 =
      [.notice ("Error creating Index file: " ++ msg)]) ∧
    ((createIndexFileRun st folder formattedDate false fm (some msg)).1.countP
        (fun o => match o with | .opCreate _ _ => true | _ => false) = 1) ∧
    ((updateIndexFileContentRun st folder formattedDate true fm (some msg)).2 =
      [.consoleLog ("Error updating Index file: " ++ msg)]) ∧
    ((updateIndexFileContentRun st folder formattedDate true fm (some msg)).1.countP
        (fun o => match o with | .opModify _ _ => true | _ => false) = 1) := by
  have hfalse : includesStr msg "already exists" = false := by
    simp only [includesStr, decide_eq_false_iff_not]
    exact hmsg
  refine ⟨?_, rfl, rfl, rfl⟩
  simp [createIndexFileRun, hfalse]

/-- C9 witness: a concrete failing create with message
"EPERM: create failed" is surfaced as the error notice. -/
theorem c9_amended_error_feedback_witness :
    ¬ ("already exists".data <:+: "EPERM: create failed".data) ∧
    ((createIndexFileRun demoSettings demoFolder demoDate false demoOldFm
        (some "EPERM: create failed")).2 =
      [.notice "Error creating Index file: EPERM: create failed"]) :=
  ⟨by decide,
   (c9_amended_error_feedback demoSettings demoFolder demoDate demoOldFm
      "EPERM: create failed" (by decide)).1⟩

/-- C10: for a vault create, delete or rename event carrying a markdown file
other than `Index.md`, the handlers of `registerIndexFileUpdateEvents`
re-synchronize only the file's direct parent folder — create and delete
target exactly the parent path, and every path a rename handler targets is
either the new parent or the old parent (derived from `oldPath`); moreover
every storage call `updateIndexFileContent` issues is addressed to that one
folder's own `Index.md`, so no ancestor folder's index document is ever
touched. -/
theorem c10_event_handlers_touch_only_parent_indexes
    (hasParent isFile oldParentIsFolder : Bool)
    (name extension parentPath oldPath : String)
    (hext : extension = "md") (hname : name ≠ "Index.md") :
    (handleCreateEvent hasParent isFile name extension parentPath =
      if hasParent && isFile then [parentPath] else []) ∧
    (handleDeleteEvent hasParent isFile name extension parentPath =
      if hasParent && isFile then [parentPath] else []) ∧
    (∀ q ∈ handleRenameEvent hasParent isFile name extension parentPath oldPath oldParentIsFolder,
      q = parentPath ∨ q = oldParentPathOf oldPath) ∧
    (∀ (st : Settings) (folder : Folder) (formattedDate : String) (present : Bool)
        (fm : Frontmatter) (err : Option String),
      ∀ op ∈ (updateIndexFileContentRun st folder formattedDate present fm err).1,
        op.path = folder.path ++ "/Index.md") := by
  have hmd : isMdNonIndex name extension = true := by
    simp [isMdNonIndex, hext, hname]
  refine ⟨?_, ?_, ?_, ?_⟩
  · simp [handleCreateEvent, hmd]
  · simp [handleDeleteEvent, hmd]
  · intro q hq
    simp only [handleRenameEvent] at hq
    rcases List.mem_append.mp hq with h | h
    · left
      split at h
      · simpa using h
      · simp at h
    · right
      split at h
      · simpa using h
      · simp at h
  · intro st folder formattedDate present fm err op hop
    cases present
    · simp [updateIndexFileContentRun] at hop
    · cases err <;>
      · simp only [updateIndexFileContentRun, Bool.not_true, Bool.false_eq_true, if_false,
          List.mem_cons, List.not_mem_nil, or_false] at hop
        rcases hop with rfl | rfl | rfl <;> rfl

/-- C10 witness: a concrete create event for `A.md` under parent `Root`
re-synchronizes exactly `Root`. -/
theorem c10_event_handlers_touch_only_parent_indexes_witness :
    ("md" : String) = "md" ∧ ("A.md" : String) ≠ "Index.md" ∧
    handleCreateEvent true true "A.md" "md" "Root" =
      if true && true then ["Root"] else [] :=
  ⟨rfl, by decide,
   (c10_event_handlers_touch_only_parent_indexes true true false "A.md" "md" "Root" "Old/A.md"
      rfl (by decide)).1⟩

end ZenSpace
